import Mathlib

/-!
Verification of the sparse-autoencoder training script (train_sae.py).

The development shallowly embeds the parts of the script that the
specification talks about:

* the sharded activation stream (the batch-loading bookkeeping of the
  training loop, lines 213-235 of train_sae.py);
* the autoencoder forward pass (AutoEncoder.forward, lines 64-72);
* the gradient projection (remove_parallel_component, lines 76-85) and the
  decoder-column renormalization (F.normalize with dim=0, lines 202 and 252);
* the evaluation metrics accumulation (lines 263-283) and the normalized
  reconstruction score (line 298).

Machine reals are modelled as exact rationals (or reals where a square root
is required); Python integer arithmetic is modelled on Int, and Python list
slicing is modelled with its clamping semantics.
-/

namespace TrainSAE

/-! ## Python slicing semantics -/

/-- Clamp a Python slice endpoint to a valid index of a sequence of length
`len`: a negative index counts from the end (clamped below at 0), a
nonnegative index is clamped above at `len`. -/
def pyIdx (len : Nat) (i : Int) : Nat :=
  if i < 0 then ((len : Int) + i).toNat else min i.toNat len

/-- Python slice `l[a:b]` with full clamping semantics. -/
def pySlice {α : Type} (l : List α) (a b : Int) : List α :=
  (l.take (pyIdx l.length b)).drop (pyIdx l.length a)

/-! ## The sharded activation stream (train_sae.py lines 144-152, 213-235)

The training loop keeps two pieces of mutable cursor state:
`current_part_index` (the index of the partition currently in memory) and
`offset` (set after a boundary crossing to the number of examples of the new
partition that were already consumed by the crossing batch). A partition
list `parts` stands for the on-disk files `sae_data_i.pt`; `torch.load` of
partition `i` is `parts.getD i []`. -/

/-- Mutable cursor state of the training loop's batch loader:
`current_part_index` and `offset` of train_sae.py lines 148 and 152. -/
structure StreamState where
  current_part_index : Nat
  offset : Int
  deriving DecidableEq, Repr

/-- Start index of the step-`step` batch inside the currently loaded
partition (train_sae.py line 217):
`batch_start = step * batch_size - current_part_index * examples_per_part - offset`.
Line 218's `batch_end` is the same formula at `step + 1`. -/
def batchStart (examples_per_part batch_size step : Nat) (st : StreamState) : Int :=
  (step : Int) * batch_size - (st.current_part_index : Int) * examples_per_part - st.offset

/-- One iteration of the batch-loading logic of the training loop
(train_sae.py lines 217-233), for step number `step` in state `st`:

* if `batch_end > examples_per_part` and a next partition exists, the batch
  is `current_part[batch_start:] ++ next_part[:batch_size - remaining]` with
  `remaining = examples_per_part - batch_start`, the partition pointer
  advances and `offset` becomes `batch_size - remaining`;
* otherwise the batch is `current_part[batch_start:batch_end]`. -/
def next_batch {α : Type} (parts : List (List α)) (examples_per_part batch_size : Nat)
    (step : Nat) (st : StreamState) : List α × StreamState :=
  let current_part := parts.getD st.current_part_index []
  let batch_start : Int := batchStart examples_per_part batch_size step st
  let batch_end : Int := batchStart examples_per_part batch_size (step + 1) st
  if (examples_per_part : Int) < batch_end ∧
      (st.current_part_index : Int) < (parts.length : Int) - 1 then
    let remaining : Int := (examples_per_part : Int) - batch_start
    let next_part := parts.getD (st.current_part_index + 1) []
    (pySlice current_part batch_start (current_part.length : Int) ++
       pySlice next_part 0 ((batch_size : Int) - remaining),
     ⟨st.current_part_index + 1, (batch_size : Int) - remaining⟩)
  else
    (pySlice current_part batch_start batch_end, st)

/-- Run the batch loader for `k` consecutive steps starting at step number
`s` in state `st`, collecting the batches in step order. -/
def runFrom {α : Type} (parts : List (List α)) (examples_per_part batch_size : Nat) :
    Nat → StreamState → Nat → List (List α)
  | _, _, 0 => []
  | s, st, k + 1 =>
    (next_batch parts examples_per_part batch_size s st).1 ::
      runFrom parts examples_per_part batch_size (s + 1)
        (next_batch parts examples_per_part batch_size s st).2 k

/-- All batches produced by the training loop (train_sae.py line 213):
steps `0, ..., total_training_examples // batch_size - 1` starting from
partition 0 with offset 0. -/
def loadAllBatches {α : Type} (parts : List (List α)) (examples_per_part batch_size : Nat) :
    List (List α) :=
  runFrom parts examples_per_part batch_size 0 ⟨0, 0⟩
    (parts.length * examples_per_part / batch_size)

/-- Cursor state of the batch loader after the first `s` steps. -/
def stateAfter {α : Type} (parts : List (List α)) (examples_per_part batch_size : Nat) :
    Nat → StreamState
  | 0 => ⟨0, 0⟩
  | s + 1 =>
    (next_batch parts examples_per_part batch_size s
      (stateAfter parts examples_per_part batch_size s)).2

/-- Two synthetic partitions of 100 examples each; the example at global
index `g` is the number `g`, so batch contents name global indices. -/
def demoParts : List (List Nat) :=
  [List.range 100, (List.range 100).map (fun k => k + 100)]

/-- Loop invariant of the batch loader at step number `s`: the current
partition index is in range, the offset lies in `[0, batch_size]`, and the
start of the step-`s` batch lies inside the current partition. -/
def StreamInv {α : Type} (parts : List (List α)) (examples_per_part batch_size : Nat)
    (s : Nat) (st : StreamState) : Prop :=
  st.current_part_index < parts.length ∧
  0 ≤ st.offset ∧ st.offset ≤ (batch_size : Int) ∧
  0 ≤ batchStart examples_per_part batch_size s st ∧
  batchStart examples_per_part batch_size s st ≤ (examples_per_part : Int)

/-! ## The sparse autoencoder (train_sae.py lines 54-72) -/

/-- Parameters of the sparse autoencoder: an encoder linear layer
`enc : n → m`, a decoder linear layer `dec : m → n`, and the L1 coefficient
`lam` (train_sae.py lines 55-62). Exact rationals stand for the float
entries. -/
structure AutoEncoder (n m : Nat) where
  encWeight : Fin m → Fin n → ℚ
  encBias : Fin m → ℚ
  decWeight : Fin n → Fin m → ℚ
  decBias : Fin n → ℚ
  lam : ℚ

/-- Application of a torch linear layer, `x ↦ W x + b`. -/
def linear {p q : Nat} (w : Fin p → Fin q → ℚ) (b : Fin p → ℚ) (x : Fin q → ℚ) :
    Fin p → ℚ :=
  fun i => (∑ j, w i j * x j) + b i

/-- Rectified linear unit. -/
def relu (x : ℚ) : ℚ := max x 0

/-- Torch `F.mse_loss` with its default mean reduction: the mean of the
squared entrywise differences over all `b * n` entries. -/
def mse_loss {b n : Nat} (input target : Fin b → Fin n → ℚ) : ℚ :=
  (∑ i, ∑ j, (input i j - target i j) ^ 2) / ((b : ℚ) * (n : ℚ))

/-- Torch `F.l1_loss` with reduction 'sum': the sum of the absolute
entrywise differences. -/
def l1_loss_sum {b m : Nat} (input target : Fin b → Fin m → ℚ) : ℚ :=
  ∑ i, ∑ j, |input i j - target i j|

/-- The autoencoder forward pass (train_sae.py lines 64-72): center the
input on the decoder bias, encode with relu, decode, and return
`(loss, f, reconst_acts, mseloss, l1loss)`. -/
def AutoEncoder.forward {n m : Nat} (sae : AutoEncoder n m) {b : Nat}
    (acts : Fin b → Fin n → ℚ) :
    ℚ × (Fin b → Fin m → ℚ) × (Fin b → Fin n → ℚ) × ℚ × ℚ :=
  let x := fun i j => acts i j - sae.decBias j
  let f := fun i k => relu (linear sae.encWeight sae.encBias (x i) k)
  let reconst_acts := fun i j => linear sae.decWeight sae.decBias (f i) j
  let mseloss := mse_loss reconst_acts acts
  let l1loss := l1_loss_sum f (fun _ _ => 0)
  let loss := mseloss + sae.lam * l1loss
  (loss, f, reconst_acts, mseloss, l1loss)

/-- Autoencoder instance with nonzero encoder bias, used to refute C8. -/
def aeNonzeroBias : AutoEncoder 1 1 :=
  ⟨fun _ _ => 1, fun _ => 1, fun _ _ => 1, fun _ => 0, 1⟩

/-- Autoencoder instance with zero encoder and decoder biases, used in the
C8 witness. -/
def aeZeroBias : AutoEncoder 1 1 :=
  ⟨fun _ _ => 1, fun _ => 0, fun _ _ => 1, fun _ => 0, 1⟩

/-! ## Normalized reconstruction score (train_sae.py line 298) -/

/-- Normalized reconstruction score:
`(full_loss - reconst_nll) / (full_loss - mlp_ablated_loss)`. -/
def nll_score (full_loss mlp_ablated_loss reconst_nll : ℚ) : ℚ :=
  (full_loss - reconst_nll) / (full_loss - mlp_ablated_loss)

/-! ## Per-feature activation counts of the metrics pass
(train_sae.py lines 162, 263-283) -/

/-- Per-feature nonzero-activation count accumulated over one evaluation
pass, exactly as in train_sae.py lines 263-283. `f ctx t feat` is the SAE
code of feature `feat` at token position `t` of held-out context `ctx`;
context `iter * gpt_batch_size + i` is entry `i` of eval sub-batch `iter`;
`selected_tokens_loc c` is the list of token positions sampled for context
`c` at line 162. As in the source, sub-batch `iter` takes
`batch_f[i, selected_tokens_loc[iter], :]`: the selected positions are
indexed by the sub-batch counter `iter`. -/
def feature_activation_counts (num_eval_batches gpt_batch_size : Nat)
    (selected_tokens_loc : Nat → List Nat) (f : Nat → Nat → Nat → ℚ)
    (feat : Nat) : Nat :=
  ∑ iter ∈ Finset.range num_eval_batches, ∑ i ∈ Finset.range gpt_batch_size,
    (selected_tokens_loc iter).countP
      (fun t => decide (f (iter * gpt_batch_size + i) t feat ≠ 0))

/-- Modelled from the spec's words, for comparison with
`feature_activation_counts`: the per-feature count in which every context
is read at its own pre-selected token positions ("a running
nonzero-activation count per feature ... using only the pre-selected token
positions per context"). -/
def feature_activation_counts_per_context (eval_contexts : Nat)
    (selected_tokens_loc : Nat → List Nat) (f : Nat → Nat → Nat → ℚ)
    (feat : Nat) : Nat :=
  ∑ ctx ∈ Finset.range eval_contexts,
    (selected_tokens_loc ctx).countP (fun t => decide (f ctx t feat ≠ 0))

/-- Selected token positions of the 2-context evaluation set used to refute
C3: context 0 samples position 0, context 1 samples position 1. -/
def selDemo : Nat → List Nat := fun c => if c = 0 then [0] else [1]

/-- Feature activations of the 2-context evaluation set used to refute C3:
feature 0 activates only on context 1 at token position 1. -/
def fDemo : Nat → Nat → Nat → ℚ := fun c t _ => if c = 1 ∧ t = 1 then 1 else 0

/-! ## Decoder-column normalization and gradient projection
(train_sae.py lines 76-85, 202, 252) -/

/-- Torch `F.normalize(w, dim=0)` (train_sae.py lines 82, 202 and 252):
each column of `w` divided by its L2 norm. The float eps clamp for
zero-norm columns is not modelled; the claims assume nonzero columns. -/
noncomputable def normalizeCols {n m : Nat} (w : Fin n → Fin m → ℝ) :
    Fin n → Fin m → ℝ :=
  fun i j => w i j / Real.sqrt (∑ k, w k j ^ 2)

/-- Gradient projection (train_sae.py lines 76-85): subtract from each
column of `grad` its component parallel to the unit-normalized
corresponding column of `weight`. -/
noncomputable def remove_parallel_component {n m : Nat}
    (grad weight : Fin n → Fin m → ℝ) : Fin n → Fin m → ℝ :=
  fun i j =>
    grad i j - (∑ k, grad k j * normalizeCols weight k j) * normalizeCols weight i j

/-- Concrete weight matrix (one column, entries 3 and 4) used in the C5
witness. -/
def weightDemo : Fin 2 → Fin 1 → ℝ := fun i _ => if i = 0 then 3 else 4

/-- Concrete gradient matrix used in the C5 witness. -/
def gradDemo : Fin 2 → Fin 1 → ℝ := fun i _ => if i = 0 then 1 else 2

/-- Concrete weight matrix (one column, entries 1 and 2) used in the C6
witness. -/
def weightDemo2 : Fin 2 → Fin 1 → ℝ := fun i _ => if i = 0 then 1 else 2

set_option maxRecDepth 40000 in
/-- C1: refuted on the code at a concrete input. With 2 partitions of 100
examples each and batch_size 64 (3 steps), the concatenation of the batches
produced by the batch-loading logic is [0,128) followed by [100,164): after
the step-1 boundary crossing, `batch_start = step*B - cpi*epp - offset`
re-reads the first `offset = 28` examples of partition 1, so the
concatenation has duplicates and is not the truncated partition stream
[0,192). -/
theorem C1_stream_concat_fails_on_code :
    (loadAllBatches demoParts 100 64).flatten =
        List.range 128 ++ (List.range 64).map (fun k => k + 100) ∧
    (loadAllBatches demoParts 100 64).flatten ≠
        (demoParts.flatten).take (demoParts.length * 100 / 64 * 64) := by
  decide

set_option maxRecDepth 40000 in
/-- C7: refuted on the code at the claim's own scenario. With 2 partitions
of 100 examples and batch_size 64 the loader does run exactly 3 steps and
does cross the partition boundary exactly once, at step 1 (the cursor moves
from partition 0 to partition 1 with offset bookkeeping 28), but the third
batch (step 2) starts at global example index 100 — offset 0 into
partition 1 — not at global index 128 as the claim states. -/
theorem C7_third_batch_start_fails_on_code :
    (loadAllBatches demoParts 100 64).length = 3 ∧
    (stateAfter demoParts 100 64 1).current_part_index = 0 ∧
    (stateAfter demoParts 100 64 2).current_part_index = 1 ∧
    (stateAfter demoParts 100 64 2).offset = 28 ∧
    (stateAfter demoParts 100 64 3).current_part_index = 1 ∧
    ((loadAllBatches demoParts 100 64).getD 2 []).headD 0 = 100 ∧
    ((loadAllBatches demoParts 100 64).getD 2 []).headD 0 ≠ 128 := by
  decide

/-! ## Lemmas about Python slicing and the batch loader -/

lemma pyIdx_of_nonneg_le (len : Nat) (i : Int) (h0 : 0 ≤ i) (hle : i ≤ (len : Int)) :
    pyIdx len i = i.toNat := by
  unfold pyIdx
  rw [if_neg (by omega), min_eq_left (by omega)]

lemma pySlice_length {α : Type} (l : List α) (a b : Int)
    (ha : 0 ≤ a) (hab : a ≤ b) (hb : b ≤ (l.length : Int)) :
    (pySlice l a b).length = (b - a).toNat := by
  unfold pySlice
  rw [pyIdx_of_nonneg_le _ _ (ha.trans hab) hb,
    pyIdx_of_nonneg_le _ _ ha (hab.trans hb),
    List.length_drop, List.length_take]
  omega

lemma getD_length {α : Type} (parts : List (List α)) (epp i : Nat)
    (hlen : ∀ p ∈ parts, p.length = epp) (hi : i < parts.length) :
    (parts.getD i []).length = epp := by
  apply hlen
  rw [List.getD_eq_getElem?_getD, List.getElem?_eq_getElem hi, Option.getD_some]
  exact List.getElem_mem _

lemma batchStart_succ (epp B s : Nat) (st : StreamState) :
    batchStart epp B (s + 1) st = batchStart epp B s st + (B : Int) := by
  simp only [batchStart]
  push_cast
  ring

/-- One loader step preserves the loop invariant and produces a batch of
exactly `batch_size` examples, as long as the step number stays below
`total_training_examples // batch_size`. -/
lemma next_batch_spec {α : Type} (parts : List (List α)) (epp B : Nat) (s : Nat)
    (st : StreamState)
    (hlen : ∀ p ∈ parts, p.length = epp) (hBepp : B ≤ epp)
    (hinv : StreamInv parts epp B s st)
    (hs : (s + 1) * B ≤ parts.length * epp) :
    (next_batch parts epp B s st).1.length = B ∧
    StreamInv parts epp B (s + 1) (next_batch parts epp B s st).2 := by
  obtain ⟨hcpi, hoff0, hoffB, hbs0, hbsE⟩ := hinv
  have hpl : (parts.getD st.current_part_index []).length = epp :=
    getD_length parts epp st.current_part_index hlen hcpi
  have hsInt : ((s : Int) + 1) * (B : Int) ≤ (parts.length : Int) * (epp : Int) := by
    exact_mod_cast hs
  have hsucc := batchStart_succ epp B s st
  have hBE : (B : Int) ≤ (epp : Int) := by exact_mod_cast hBepp
  simp only [next_batch]
  split_ifs with hc
  all_goals dsimp only
  · obtain ⟨hbe, hlt⟩ := hc
    rw [hsucc] at hbe
    have hnextlt : st.current_part_index + 1 < parts.length := by omega
    have hnl : (parts.getD (st.current_part_index + 1) []).length = epp :=
      getD_length parts epp _ hlen hnextlt
    have hnewbs : batchStart epp B (s + 1)
        ⟨st.current_part_index + 1,
          (B : Int) - ((epp : Int) - batchStart epp B s st)⟩ = st.offset := by
      simp only [batchStart]
      push_cast
      ring
    constructor
    · rw [List.length_append,
        pySlice_length _ _ _ hbs0 (by rw [hpl]; exact hbsE) (by rw [hpl]),
        pySlice_length _ _ _ le_rfl (by omega) (by rw [hnl]; omega), hpl]
      omega
    · refine ⟨hnextlt, ?_, ?_, ?_, ?_⟩
      · show (0 : Int) ≤ (B : Int) - ((epp : Int) - batchStart epp B s st)
        omega
      · show (B : Int) - ((epp : Int) - batchStart epp B s st) ≤ (B : Int)
        omega
      · rw [hnewbs]
        exact hoff0
      · rw [hnewbs]
        omega
  · have hbeE : batchStart epp B (s + 1) st ≤ (epp : Int) := by
      by_cases hlt : (st.current_part_index : Int) < (parts.length : Int) - 1
      · rcases not_and_or.mp hc with h | h
        · omega
        · exact absurd hlt h
      · have hCeq : (st.current_part_index : Int) = (parts.length : Int) - 1 := by omega
        have hexp : ((parts.length : Int) - 1) * (epp : Int)
            = (parts.length : Int) * (epp : Int) - (epp : Int) := by ring
        simp only [batchStart, hCeq]
        push_cast
        nlinarith [hsInt, hoff0, hexp]
    constructor
    · rw [pySlice_length _ _ _ hbs0 (by omega) (by rw [hpl]; exact hbeE)]
      omega
    · exact ⟨hcpi, hoff0, hoffB, by omega, hbeE⟩

/-- Running the loader for `k` steps from a state satisfying the invariant
yields `k` batches, each of exactly `batch_size` examples. -/
lemma runFrom_map_length {α : Type} (parts : List (List α)) (epp B : Nat)
    (hlen : ∀ p ∈ parts, p.length = epp) (hBepp : B ≤ epp) :
    ∀ (k s : Nat) (st : StreamState), StreamInv parts epp B s st →
      (s + k) * B ≤ parts.length * epp →
      (runFrom parts epp B s st k).map List.length = List.replicate k B := by
  intro k
  induction k with
  | zero => intro s st _ _; simp [runFrom]
  | succ k ih =>
    intro s st hinv hb
    have hs1 : (s + 1) * B ≤ parts.length * epp :=
      le_trans (Nat.mul_le_mul_right B (by omega)) hb
    obtain ⟨h1, h2⟩ := next_batch_spec parts epp B s st hlen hBepp hinv hs1
    have hb' : (s + 1 + k) * B ≤ parts.length * epp := by
      have : s + 1 + k = s + (k + 1) := by omega
      rw [this]
      exact hb
    simp only [runFrom, List.map_cons, h1, List.replicate_succ, List.cons.injEq]
    exact ⟨trivial, ih (s + 1) _ h2 hb'⟩

/-- C10: with partitions of equal example count `examples_per_part` and
`batch_size ≤ examples_per_part`, every one of the
`total_training_examples // batch_size` steps of the training loop produces
a batch of exactly `batch_size` examples, so the short-batch assertion of
train_sae.py line 235 never fires. -/
theorem C10_batches_always_full {α : Type} (parts : List (List α)) (epp B : Nat)
    (hlen : ∀ p ∈ parts, p.length = epp) (hBepp : B ≤ epp) :
    (loadAllBatches parts epp B).map List.length
      = List.replicate (parts.length * epp / B) B := by
  cases parts with
  | nil => simp [loadAllBatches, runFrom]
  | cons p ps =>
    simp only [loadAllBatches]
    apply runFrom_map_length _ epp B hlen hBepp _ 0 ⟨0, 0⟩
    · refine ⟨Nat.succ_pos _, ?_, ?_, ?_, ?_⟩
      · show (0 : Int) ≤ 0
        exact le_rfl
      · show (0 : Int) ≤ (B : Int)
        exact_mod_cast Nat.zero_le B
      · simp [batchStart]
      · simp [batchStart]
    · rw [Nat.zero_add]
      exact Nat.div_mul_le_self _ _

/-- Witness for C10 at a concrete input: two partitions of two examples
each with batch_size 2 give two full batches. -/
theorem C10_batches_always_full_witness :
    (loadAllBatches [[0, 1], [2, 3]] 2 2).map List.length = List.replicate 2 2 :=
  C10_batches_always_full [[0, 1], [2, 3]] 2 2 (by decide) (by decide)

/-! ## The autoencoder forward pass (C4, C8) -/

/-- C4: the forward pass computes the codes `relu(enc(batch - dec_bias))`,
the reconstruction `dec(codes)`, and returns the mean-squared error of the
reconstruction against the original uncentered batch, the L1 norm-sum of
the codes summed (not averaged) over the batch, and the combined loss
`MSE + lam * L1`, together with the codes and the reconstruction. -/
theorem C4_forward_components {n m b : Nat} (sae : AutoEncoder n m)
    (acts : Fin b → Fin n → ℚ) :
    (sae.forward acts).2.1 = (fun i k =>
        relu ((∑ j, sae.encWeight k j * (acts i j - sae.decBias j)) + sae.encBias k)) ∧
    (sae.forward acts).2.2.1 = (fun i j =>
        (∑ k, sae.decWeight j k * (sae.forward acts).2.1 i k) + sae.decBias j) ∧
    (sae.forward acts).2.2.2.1 =
        (∑ i, ∑ j, ((sae.forward acts).2.2.1 i j - acts i j) ^ 2) / ((b : ℚ) * (n : ℚ)) ∧
    (sae.forward acts).2.2.2.2 = ∑ i, ∑ k, |(sae.forward acts).2.1 i k| ∧
    (sae.forward acts).1 =
        (sae.forward acts).2.2.2.1 + sae.lam * (sae.forward acts).2.2.2.2 := by
  refine ⟨rfl, rfl, rfl, ?_, rfl⟩
  simp [AutoEncoder.forward, l1_loss_sum]

/-- C8: refuted at a concrete weight setting: with encoder bias 1 and
decoder bias 0, the forward pass on the all-zero batch has nonzero
mean-squared-error loss and nonzero L1 loss. -/
theorem C8_zero_batch_fails_on_code :
    ¬ ((aeNonzeroBias.forward (fun _ _ => (0 : ℚ) : Fin 1 → Fin 1 → ℚ)).2.2.2.1 = 0 ∧
       (aeNonzeroBias.forward (fun _ _ => (0 : ℚ) : Fin 1 → Fin 1 → ℚ)).2.2.2.2 = 0) := by
  simp only [aeNonzeroBias, AutoEncoder.forward, mse_loss, l1_loss_sum, linear, relu,
    Fin.sum_univ_one]
  norm_num

/-- C8 amended: for every weight setting whose encoder bias and decoder
bias are zero, the forward pass on an all-zero batch returns zero
mean-squared-error loss and zero L1 loss. -/
theorem C8_zero_batch_zero_biases {n m b : Nat} (sae : AutoEncoder n m)
    (hEnc : ∀ k, sae.encBias k = 0) (hDec : ∀ j, sae.decBias j = 0) :
    (sae.forward (fun _ _ => (0 : ℚ) : Fin b → Fin n → ℚ)).2.2.2.1 = 0 ∧
    (sae.forward (fun _ _ => (0 : ℚ) : Fin b → Fin n → ℚ)).2.2.2.2 = 0 := by
  constructor <;>
    simp [AutoEncoder.forward, mse_loss, l1_loss_sum, linear, relu, hEnc, hDec]

/-- Witness for the amended C8 at a concrete zero-bias autoencoder. -/
theorem C8_zero_batch_zero_biases_witness :
    (aeZeroBias.forward (fun _ _ => (0 : ℚ) : Fin 1 → Fin 1 → ℚ)).2.2.2.1 = 0 ∧
    (aeZeroBias.forward (fun _ _ => (0 : ℚ) : Fin 1 → Fin 1 → ℚ)).2.2.2.2 = 0 :=
  C8_zero_batch_zero_biases aeZeroBias (fun _ => rfl) (fun _ => rfl)

/-! ## The normalized reconstruction score (C2) -/

/-- C2: refuted at a concrete input: with full_loss 1, ablated loss 2 and
reconstruction loss equal to full_loss, the score
`(full_loss - reconst) / (full_loss - ablated)` is 0, not 1 as the claim
states. -/
theorem C2_score_fails_at_full_loss :
    nll_score 1 2 1 = 0 ∧ nll_score 1 2 1 ≠ 1 := by
  constructor <;> norm_num [nll_score]

/-- C2 amended: when full_loss ≠ ablated_loss, the normalized score equals
0 when the reconstruction loss equals full_loss and 1 when the
reconstruction loss equals ablated_loss. -/
theorem C2_score_boundaries (full_loss mlp_ablated_loss reconst_nll : ℚ)
    (h : full_loss ≠ mlp_ablated_loss) :
    (reconst_nll = full_loss → nll_score full_loss mlp_ablated_loss reconst_nll = 0) ∧
    (reconst_nll = mlp_ablated_loss →
      nll_score full_loss mlp_ablated_loss reconst_nll = 1) := by
  constructor
  · rintro rfl
    simp [nll_score]
  · rintro rfl
    exact div_self (sub_ne_zero.mpr h)

/-- Witness for the amended C2 at full_loss 1, ablated loss 2,
reconstruction loss 2. -/
theorem C2_score_boundaries_witness : nll_score 1 2 2 = 1 :=
  (C2_score_boundaries 1 2 2 (by norm_num)).2 rfl

/-! ## Per-feature activation counts (C3, C9) -/

/-- C3: refuted on the code at a concrete input: with 2 contexts in one
eval sub-batch of gpt_batch_size 2, position 0 selected for context 0,
position 1 selected for context 1, and a feature activating only on
context 1 at position 1, the accumulation of lines 280-283 reads every
context of sub-batch `iter` at `selected_tokens_loc[iter]` — context 0's
positions — so the feature counts 0, while counting each context at its
own selected positions gives 1. -/
theorem C3_counts_use_subbatch_positions :
    feature_activation_counts 1 2 selDemo fDemo 0 = 0 ∧
    feature_activation_counts_per_context 2 selDemo fDemo 0 = 1 ∧
    feature_activation_counts 1 2 selDemo fDemo 0 ≠
      feature_activation_counts_per_context 2 selDemo fDemo 0 := by
  decide

/-- C9: the per-feature nonzero-activation count accumulated over a full
evaluation pass, divided by `eval_contexts * eval_context_tokens`, is at
most 1: each of the `eval_contexts / gpt_batch_size` sub-batches
contributes at most `gpt_batch_size * eval_context_tokens` activations. -/
theorem C9_density_at_most_one (eval_contexts gpt_batch_size eval_context_tokens : Nat)
    (selected_tokens_loc : Nat → List Nat) (f : Nat → Nat → Nat → ℚ) (feat : Nat)
    (hsel : ∀ c, (selected_tokens_loc c).length = eval_context_tokens)
    (hec : 0 < eval_contexts) (hect : 0 < eval_context_tokens) :
    (feature_activation_counts (eval_contexts / gpt_batch_size) gpt_batch_size
        selected_tokens_loc f feat : ℚ) /
      ((eval_contexts : ℚ) * (eval_context_tokens : ℚ)) ≤ 1 := by
  have hecQ : (0 : ℚ) < (eval_contexts : ℚ) := by exact_mod_cast hec
  have hectQ : (0 : ℚ) < (eval_context_tokens : ℚ) := by exact_mod_cast hect
  rw [div_le_one (mul_pos hecQ hectQ)]
  have hcount : feature_activation_counts (eval_contexts / gpt_batch_size)
      gpt_batch_size selected_tokens_loc f feat
      ≤ eval_contexts * eval_context_tokens := by
    calc feature_activation_counts (eval_contexts / gpt_batch_size) gpt_batch_size
          selected_tokens_loc f feat
        ≤ ∑ iter ∈ Finset.range (eval_contexts / gpt_batch_size),
            ∑ i ∈ Finset.range gpt_batch_size, eval_context_tokens := by
          refine Finset.sum_le_sum fun iter _ => Finset.sum_le_sum fun i _ => ?_
          rw [← hsel iter]
          exact List.countP_le_length _
      _ = eval_contexts / gpt_batch_size * gpt_batch_size * eval_context_tokens := by
          simp [Finset.sum_const, Finset.card_range, mul_assoc]
      _ ≤ eval_contexts * eval_context_tokens :=
          Nat.mul_le_mul_right _ (Nat.div_mul_le_self _ _)
  calc (feature_activation_counts (eval_contexts / gpt_batch_size) gpt_batch_size
        selected_tokens_loc f feat : ℚ)
      ≤ ((eval_contexts * eval_context_tokens : Nat) : ℚ) := by exact_mod_cast hcount
    _ = (eval_contexts : ℚ) * (eval_context_tokens : ℚ) := by push_cast; ring

/-- Witness for C9 at a concrete one-context, one-token evaluation set with
an always-active feature. -/
theorem C9_density_at_most_one_witness :
    (feature_activation_counts (1 / 1) 1 (fun _ => [0]) (fun _ _ _ => (1 : ℚ)) 0 : ℚ) /
      (((1 : Nat) : ℚ) * ((1 : Nat) : ℚ)) ≤ 1 :=
  C9_density_at_most_one 1 1 1 (fun _ => [0]) (fun _ _ _ => 1) 0 (fun _ => rfl)
    (by decide) (by decide)

/-! ## Normalization and gradient projection (C5, C6) -/

/-- Sum of squares of a unit-normalized nonzero column is 1. -/
lemma sum_sq_normalizeCols {n m : Nat} (w : Fin n → Fin m → ℝ) (j : Fin m)
    (h : ∃ i, w i j ≠ 0) : ∑ i, normalizeCols w i j ^ 2 = 1 := by
  obtain ⟨i0, hi0⟩ := h
  have hpos : 0 < ∑ i, w i j ^ 2 :=
    Finset.sum_pos' (fun i _ => sq_nonneg _) ⟨i0, Finset.mem_univ _, by positivity⟩
  have hsqrt : Real.sqrt (∑ i, w i j ^ 2) ^ 2 = ∑ i, w i j ^ 2 := Real.sq_sqrt hpos.le
  have hrw : ∑ i, normalizeCols w i j ^ 2
      = (∑ i, w i j ^ 2) / Real.sqrt (∑ i, w i j ^ 2) ^ 2 := by
    simp [normalizeCols, div_pow, Finset.sum_div]
  rw [hrw, hsqrt, div_self hpos.ne']

/-- C5: for every gradient matrix and every weight matrix with nonzero
columns, each column of `remove_parallel_component grad weight`, dotted
with the unit-normalized corresponding weight column, equals zero. -/
theorem C5_projection_orthogonal {n m : Nat} (grad weight : Fin n → Fin m → ℝ)
    (h : ∀ j, ∃ i, weight i j ≠ 0) (j : Fin m) :
    ∑ i, remove_parallel_component grad weight i j * normalizeCols weight i j = 0 := by
  have h1 := sum_sq_normalizeCols weight j (h j)
  have hexp : ∀ i : Fin n,
      remove_parallel_component grad weight i j * normalizeCols weight i j
        = grad i j * normalizeCols weight i j
          - (∑ k, grad k j * normalizeCols weight k j) * normalizeCols weight i j ^ 2 := by
    intro i
    simp only [remove_parallel_component]
    ring
  rw [Finset.sum_congr rfl fun i _ => hexp i, Finset.sum_sub_distrib, ← Finset.mul_sum,
    h1, mul_one, sub_self]

/-- Witness for C5 at a concrete gradient and weight column (3, 4). -/
theorem C5_projection_orthogonal_witness :
    ∑ i, remove_parallel_component gradDemo weightDemo i 0 * normalizeCols weightDemo i 0
      = 0 :=
  C5_projection_orthogonal gradDemo weightDemo
    (fun _ => ⟨0, by norm_num [weightDemo]⟩) 0

/-- C6: immediately after `F.normalize(dec.weight, dim=0)` — applied at
initialization (line 202) and at every periodic renormalization step
(line 252) — every (nonzero) decoder weight column has L2 norm exactly 1. -/
theorem C6_renormalized_columns_unit {n m : Nat} (w : Fin n → Fin m → ℝ)
    (h : ∀ j, ∃ i, w i j ≠ 0) (j : Fin m) :
    Real.sqrt (∑ i, normalizeCols w i j ^ 2) = 1 := by
  rw [sum_sq_normalizeCols w j (h j), Real.sqrt_one]

/-- Witness for C6 at a concrete weight column (1, 2). -/
theorem C6_renormalized_columns_unit_witness :
    Real.sqrt (∑ i, normalizeCols weightDemo2 i 0 ^ 2) = 1 :=
  C6_renormalized_columns_unit weightDemo2 (fun _ => ⟨0, by norm_num [weightDemo2]⟩) 0

end TrainSAE
